import Mathlib

/-!
Verification of `data_diff/format.py`: the row classification and reshaping
pipeline that converts a two-table diff result into a versioned JSON document.

The Python source is shallowly embedded: Python dicts become association
lists that preserve insertion order (with overwrite-on-duplicate-key
semantics), Python values become the inductive `Value`, fallible code
(KeyError, TypeError on missing constructor arguments) returns `Option`.
String operations mirror Python exactly: `str.replace` replaces every
non-overlapping occurrence left to right, `str.startswith` / `str.endswith`
test prefixes and suffixes.
-/

namespace DataDiff

/-- A Python runtime value, as far as this pipeline observes it. -/
inductive Value where
  | vNull : Value
  | vBool : Bool → Value
  | vInt : Int → Value
  | vStr : String → Value
deriving DecidableEq

/-- Python truthiness of a `Value` (`bool(v)`). -/
def Value.truthy : Value → Bool
  | .vNull => false
  | .vBool b => b
  | .vInt n => n != 0
  | .vStr s => s != ""

/-- A Python dict from field names to values, as an insertion-ordered
association list with unique keys. -/
abbrev Pd := List (String × Value)

/-- Insert or overwrite a key in a dict: an existing key keeps its position
and gets the new value, a new key is appended at the end. -/
def upsert (d : Pd) (k : String) (v : Value) : Pd :=
  if d.any (fun p => p.1 == k) then d.map (fun p => if p.1 == k then (k, v) else p)
  else d ++ [(k, v)]

/-- Build a Python dict from a key-value list: later bindings of the same
key overwrite earlier ones, first-insertion order is kept (`dict(pairs)`). -/
def pydict (l : List (String × Value)) : Pd :=
  l.foldl (fun d p => upsert d p.1 p.2) []

/-- Python dict lookup `d[k]`: `none` models a KeyError. -/
def dget (d : Pd) (k : String) : Option Value :=
  Option.map Prod.snd (d.find? (fun p => p.1 == k))

instance : DecidableEq (List Pd × List Pd × List Pd) := instDecidableEqProd

/-- Python `s.startswith(p)`. -/
def pyStartsWith (s p : String) : Bool := p.data.isPrefixOf s.data

/-- Python `s.endswith(p)`. -/
def pyEndsWith (s p : String) : Bool := p.data.reverse.isPrefixOf s.data.reverse

/-- Worker for `pyReplace`: scans the character list left to right; a
positive skip counter means characters still belonging to an already
replaced occurrence of the pattern. -/
def replAux (pat rep : List Char) : List Char → Nat → List Char
  | [], _ => []
  | _ :: rest, Nat.succ n => replAux pat rep rest n
  | c :: rest, 0 =>
    if pat.isPrefixOf (c :: rest) then rep ++ replAux pat rep rest (pat.length - 1)
    else c :: replAux pat rep rest 0

/-- Python `s.replace(pat, rep)`: every non-overlapping occurrence of `pat`
is replaced, scanning left to right.  (Only ever called with a non-empty
pattern in this file; the empty-pattern guard keeps the model total.) -/
def pyReplace (s pat rep : String) : String :=
  if pat.data.isEmpty then s else String.mk (replAux pat.data rep.data s.data 0)

/-- The column name the code computes for an `is_diff_<col>` field:
`field.replace('is_diff_', '')`. -/
def decode_d (field : String) : String := pyReplace field ("is_diff_") ("")

/-- The column name the code computes for a `<col>_a` field:
`field.replace('_a', '')`. -/
def decode_a (field : String) : String := pyReplace field ("_a") ("")

/-- The column name the code computes for a `<col>_b` field:
`field.replace('_b', '')`. -/
def decode_b (field : String) : String := pyReplace field ("_b") ("")

/-- `JsonExclusiveRowValue`: value of a single column in an exclusive row. -/
structure JsonExclusiveRowValue where
  isPK : Bool
  value : Value
deriving DecidableEq

/-- `JsonDiffRowValue`: pair of diffed values for two rows with equal PKs. -/
structure JsonDiffRowValue where
  table1 : Value
  table2 : Value
  isDiff : Bool
  isPK : Bool
deriving DecidableEq

/-- `Total`: total row counts per table. -/
structure Total where
  table1 : Int
  table2 : Int
deriving DecidableEq

/-- `ExclusiveRows`: exclusive row counts per table. -/
structure ExclusiveRows where
  table1 : Int
  table2 : Int
deriving DecidableEq

/-- `Rows`: row statistics of the summary. -/
structure Rows where
  total : Total
  exclusive : ExclusiveRows
  updated : Int
  unchanged : Int
deriving DecidableEq

/-- `Stats`: per-diff-kind occurrence counts. -/
structure Stats where
  diffCounts : List (String × Int)
deriving DecidableEq

/-- `JsonDiffSummary`: the optional summary section. -/
structure JsonDiffSummary where
  rows : Rows
  stats : Stats
deriving DecidableEq

/-- `ExclusiveColumns`: column names exclusive to each table. -/
structure ExclusiveColumns where
  table1 : List String
  table2 : List String
deriving DecidableEq

/-- `JsonColumnsSummary`: the optional columns section. -/
structure JsonColumnsSummary where
  exclusive : ExclusiveColumns
  typeChanged : List String
deriving DecidableEq

/-- `ExclusiveDiff`: reshaped exclusive rows per table. -/
structure ExclusiveDiff where
  table1 : List (List (String × JsonExclusiveRowValue))
  table2 : List (List (String × JsonExclusiveRowValue))
deriving DecidableEq

/-- `RowsDiff`: the `rows` section of the output document. -/
structure RowsDiff where
  exclusive : ExclusiveDiff
  diff : List (List (String × JsonDiffRowValue))
deriving DecidableEq

/-- `JsonDiff`: the versioned output document. -/
structure JsonDiff where
  status : String
  model : String
  table1 : List String
  table2 : List String
  rows : RowsDiff
  summary : Option JsonDiffSummary
  columns : Option JsonColumnsSummary
  version : String := "1.0.0"
deriving DecidableEq

/-- `dict(zip(schema, row))`: attach the positional schema to a raw row. -/
def mkRow (schema : List String) (row : List Value) : Pd :=
  pydict (schema.zip row)

/-- Truthiness of a field of a row dict, `false` when the key is absent
(only used to state theorems; the code itself raises on an absent key). -/
def flagTruthy (d : Pd) (k : String) : Bool :=
  (Option.map Value.truthy (dget d k)).getD false

/-- `_group_rows`: classify each row by its exclusivity flags, in input
order, into the table1-exclusive, table2-exclusive and matched buckets.
`none` models the KeyError raised when a row lacks a flag field. -/
def _group_rows (schema : List String) : List (List Value) → Option (List Pd × List Pd × List Pd)
  | [] => some ([], [], [])
  | r :: rest =>
    let d := mkRow schema r
    match dget d ("is_exclusive_a"), dget d ("is_exclusive_b") with
    | some a, some b =>
      match _group_rows schema rest with
      | none => none
      | some (t1, t2, m) =>
        if a.truthy then some (d :: t1, t2, m)
        else if b.truthy then some (t1, d :: t2, m)
        else some (t1, t2, d :: m)
    | _, _ => none

/-- Partial per-column accumulator of `_jsonify_diff` (the inner dict of
the `defaultdict`): each sub-field is set once its field kind is seen. -/
structure DiffAcc where
  table1 : Option Value
  table2 : Option Value
  isDiff : Option Bool
  isPK : Option Bool
deriving DecidableEq

/-- The empty inner dict a `defaultdict(dict)` creates on first access. -/
def emptyAcc : DiffAcc := ⟨none, none, none, none⟩

/-- Update the accumulator of column `k`, creating it at the end of the
insertion order if absent (`defaultdict` semantics). -/
def updAcc (cols : List (String × DiffAcc)) (k : String) (f : DiffAcc → DiffAcc) :
    List (String × DiffAcc) :=
  if cols.any (fun p => p.1 == k) then
    cols.map (fun p => if p.1 == k then (k, f p.2) else p)
  else cols ++ [(k, f emptyAcc)]

/-- One iteration of the field loop of `_jsonify_diff`. -/
def diffStep (keys : List String) (cols : List (String × DiffAcc)) (fv : String × Value) :
    List (String × DiffAcc) :=
  if fv.1 == "is_exclusive_a" || fv.1 == "is_exclusive_b" then cols
  else if pyStartsWith fv.1 ("is_diff_") then
    updAcc cols (decode_d fv.1) (fun a => { a with isDiff := some fv.2.truthy })
  else if pyEndsWith fv.1 ("_a") then
    updAcc cols (decode_a fv.1)
      (fun a => { a with table1 := some fv.2, isPK := some (List.contains keys (decode_a fv.1)) })
  else if pyEndsWith fv.1 ("_b") then
    updAcc cols (decode_b fv.1)
      (fun a => { a with table2 := some fv.2, isPK := some (List.contains keys (decode_b fv.1)) })
  else cols

/-- `JsonDiffRowValue(**data)`: fails (TypeError) unless all four
sub-fields were populated. -/
def finishAcc (a : DiffAcc) : Option JsonDiffRowValue :=
  match a.table1, a.table2, a.isDiff, a.isPK with
  | some t1, some t2, some d, some pk => some ⟨t1, t2, d, pk⟩
  | _, _, _, _ => none

/-- `_jsonify_diff`: reshape a matched wide row into a mapping from column
name to `JsonDiffRowValue`.  `none` models the TypeError raised when some
column is missing one of its four sub-fields. -/
def _jsonify_diff (row : Pd) (keys : List String) : Option (List (String × JsonDiffRowValue)) :=
  List.mapM (fun p => Option.map (fun v => (p.1, v)) (finishAcc p.2))
    (row.foldl (diffStep keys) [])

/-- Insert or overwrite one reshaped exclusive column value, keeping
insertion order (`defaultdict` access then setting both sub-keys). -/
def updExcl (cols : List (String × JsonExclusiveRowValue)) (k : String)
    (v : JsonExclusiveRowValue) : List (String × JsonExclusiveRowValue) :=
  if cols.any (fun p => p.1 == k) then cols.map (fun p => if p.1 == k then (k, v) else p)
  else cols ++ [(k, v)]

/-- The field loop of `_jsonify_exclusive`.  The two flag arguments are the
row's `is_exclusive_a` / `is_exclusive_b` entries; the code reads them only
inside the matching suffix branch, so a missing flag (`none`) raises
(returns `none`) only when such a field is reached. -/
def exclLoop (flagA flagB : Option Value) (keys : List String)
    (acc : List (String × JsonExclusiveRowValue)) :
    List (String × Value) → Option (List (String × JsonExclusiveRowValue))
  | [] => some acc
  | (field, value) :: rest =>
    if field == "is_exclusive_a" || field == "is_exclusive_b" then
      exclLoop flagA flagB keys acc rest
    else if pyStartsWith field ("is_diff_") then
      exclLoop flagA flagB keys acc rest
    else if pyEndsWith field ("_b") then
      match flagB with
      | none => none
      | some b =>
        if b.truthy then
          exclLoop flagA flagB keys
            (updExcl acc (decode_b field) ⟨List.contains keys (decode_b field), value⟩) rest
        else exclLoop flagA flagB keys acc rest
    else if pyEndsWith field ("_a") then
      match flagA with
      | none => none
      | some a =>
        if a.truthy then
          exclLoop flagA flagB keys
            (updExcl acc (decode_a field) ⟨List.contains keys (decode_a field), value⟩) rest
        else exclLoop flagA flagB keys acc rest
    else exclLoop flagA flagB keys acc rest

/-- `_jsonify_exclusive`: reshape an exclusive wide row into a mapping from
column name to `JsonExclusiveRowValue`. -/
def _jsonify_exclusive (row : Pd) (keys : List String) :
    Option (List (String × JsonExclusiveRowValue)) :=
  exclLoop (dget row ("is_exclusive_a")) (dget row ("is_exclusive_b")) keys [] row

/-- One step of the spec's a-side-only projection (see
`exclusiveProjectionA`). -/
def exclStepA (keys : List String) (acc : List (String × JsonExclusiveRowValue))
    (fv : String × Value) : List (String × JsonExclusiveRowValue) :=
  if fv.1 == "is_exclusive_a" || fv.1 == "is_exclusive_b" then acc
  else if pyStartsWith fv.1 ("is_diff_") then acc
  else if pyEndsWith fv.1 ("_a") then
    updExcl acc (decode_a fv.1) ⟨List.contains keys (decode_a fv.1), fv.2⟩
  else acc

/-- Modelled from the spec (4.3), for the refinement claim about exclusive
rows: the projection of a table1-exclusive row built from only its `_a`
fields, ignoring the exclusivity flags and all `is_diff_*` fields, each
value tagged with key-set membership.  Column names are decoded with the
code's own decoding so that this definition isolates exactly the
side-filtering question. -/
def exclusiveProjectionA (row : Pd) (keys : List String) :
    List (String × JsonExclusiveRowValue) :=
  row.foldl (exclStepA keys) []

/-- One step of the spec's b-side-only projection (see
`exclusiveProjectionB`). -/
def exclStepB (keys : List String) (acc : List (String × JsonExclusiveRowValue))
    (fv : String × Value) : List (String × JsonExclusiveRowValue) :=
  if fv.1 == "is_exclusive_a" || fv.1 == "is_exclusive_b" then acc
  else if pyStartsWith fv.1 ("is_diff_") then acc
  else if pyEndsWith fv.1 ("_b") then
    updExcl acc (decode_b fv.1) ⟨List.contains keys (decode_b fv.1), fv.2⟩
  else acc

/-- Modelled from the spec (4.3): the symmetric b-side-only projection of a
table2-exclusive row. -/
def exclusiveProjectionB (row : Pd) (keys : List String) :
    List (String × JsonExclusiveRowValue) :=
  row.foldl (exclStepB keys) []

/-- The external stats mapping consumed by `_jsonify_diff_summary`; an
absent key models a dict without that key (indexing it raises). -/
structure StatsDict where
  rows_A : Option Int
  rows_B : Option Int
  exclusive_A : Option Int
  exclusive_B : Option Int
  updated : Option Int
  unchanged : Option Int
  diff_counts : Option (List (String × Int))
deriving DecidableEq

/-- `_jsonify_diff_summary`: direct remap of the stats dict; `none` models
the KeyError raised when a required key is missing. -/
def _jsonify_diff_summary (s : StatsDict) : Option JsonDiffSummary :=
  match s.rows_A, s.rows_B, s.exclusive_A, s.exclusive_B, s.updated, s.unchanged, s.diff_counts with
  | some ra, some rb, some ea, some eb, some u, some un, some dc =>
    some { rows := { total := { table1 := ra, table2 := rb },
                     exclusive := { table1 := ea, table2 := eb },
                     updated := u, unchanged := un },
           stats := { diffCounts := dc } }
  | _, _, _, _, _, _, _ => none

/-- Lookup in the column-diff mapping (a Python dict with unique keys). -/
def cdGet (d : List (String × List String)) (k : String) : Option (List String) :=
  Option.map Prod.snd (d.find? (fun p => p.1 == k))

/-- `_jsonify_columns_diff`: remap the column-diff mapping, treating
missing keys as empty lists (`dict.get(k, [])`).  Note the crossover:
`added` lands under `exclusive.table2` and `removed` under
`exclusive.table1`. -/
def _jsonify_columns_diff (d : List (String × List String)) : JsonColumnsSummary :=
  { exclusive := { table2 := (cdGet d ("added")).getD [],
                   table1 := (cdGet d ("removed")).getD [] },
    typeChanged := (cdGet d ("changed")).getD [] }

/-- The `is_different` expression of `jsonify`, with Python's short-circuit
evaluation: the column-diff mapping is consulted only when all three row
buckets are empty, and its keys are read by direct indexing (`none` models
the KeyError on a missing key). -/
def statusCalc (t1 t2 m : List Pd) (wc : Option (List (String × List String))) : Option Bool :=
  if !t1.isEmpty || !t2.isEmpty || !m.isEmpty then some true
  else
    match wc with
    | none => some false
    | some d =>
      if d.isEmpty then some false
      else
        match cdGet d ("added") with
        | none => none
        | some a =>
          if !a.isEmpty then some true
          else
            match cdGet d ("removed") with
            | none => none
            | some r =>
              if !r.isEmpty then some true
              else
                match cdGet d ("changed") with
                | none => none
                | some c => some (!c.isEmpty)

/-- Python truthiness of the optional column-diff mapping (`None` and the
empty dict are falsy). -/
def wcActive : Option (List (String × List String)) → Bool
  | none => false
  | some d => !d.isEmpty

/-- The list stored under key `k` of the optional column-diff mapping, with
missing key or mapping read as the empty list (used to state claims). -/
def wcList (wc : Option (List (String × List String))) (k : String) : List String :=
  match wc with
  | none => []
  | some d => (cdGet d k).getD []

/-- `jsonify`: the top-level assembler.  Inputs are the externally supplied
data the Python function reads off its `diff` argument: the positional
field schema, the key columns, the raw diff rows, the model name, the two
table paths, the summary request plus stats mapping, and the optional
column-diff mapping.  `none` models any uncaught exception. -/
def jsonify (schema key_columns : List String) (rows : List (List Value)) (dbt_model : String)
    (table1_path table2_path : List String) (with_summary : Bool) (stats : StatsDict)
    (with_columns : Option (List (String × List String))) : Option JsonDiff :=
  match _group_rows schema rows with
  | none => none
  | some (t1e, t2e, dr) =>
    match List.mapM (fun r => _jsonify_diff r key_columns) dr with
    | none => none
    | some drj =>
      match List.mapM (fun r => _jsonify_exclusive r key_columns) t1e with
      | none => none
      | some t1j =>
        match List.mapM (fun r => _jsonify_exclusive r key_columns) t2e with
        | none => none
        | some t2j =>
          match (if with_summary then Option.map some (_jsonify_diff_summary stats) else some none) with
          | none => none
          | some summary =>
            let columns : Option JsonColumnsSummary :=
              match with_columns with
              | none => none
              | some d => if d.isEmpty then none else some (_jsonify_columns_diff d)
            match statusCalc t1e t2e dr with_columns with
            | none => none
            | some isdiff =>
              some { status := if isdiff then "different" else "identical",
                     model := dbt_model,
                     table1 := table1_path,
                     table2 := table2_path,
                     rows := { exclusive := { table1 := t1j, table2 := t2j }, diff := drj },
                     summary := summary,
                     columns := columns,
                     version := "1.0.0" }

/-- A stats mapping with every key absent (used where the summary is not
requested, so the mapping is never read). -/
def emptyStats : StatsDict := ⟨none, none, none, none, none, none, none⟩

theorem group_rows_filter (schema : List String) (rows : List (List Value)) (t1 t2 m : List Pd)
    (h : _group_rows schema rows = some (t1, t2, m)) :
    t1 = List.filter (fun d => flagTruthy d ("is_exclusive_a")) (rows.map (mkRow schema)) ∧
    t2 = List.filter (fun d => !flagTruthy d ("is_exclusive_a") && flagTruthy d ("is_exclusive_b"))
      (rows.map (mkRow schema)) ∧
    m = List.filter (fun d => !flagTruthy d ("is_exclusive_a") && !flagTruthy d ("is_exclusive_b"))
      (rows.map (mkRow schema)) := by
  induction rows generalizing t1 t2 m with
  | nil =>
    simp only [_group_rows, Option.some.injEq] at h
    obtain ⟨rfl, rfl, rfl⟩ := h
    simp
  | cons r rest ih =>
    simp only [_group_rows] at h
    cases ha : dget (mkRow schema r) ("is_exclusive_a") with
    | none => rw [ha] at h; simp at h
    | some a =>
      cases hb : dget (mkRow schema r) ("is_exclusive_b") with
      | none => rw [ha, hb] at h; simp at h
      | some b =>
        rw [ha, hb] at h
        cases hrec : _group_rows schema rest with
        | none => rw [hrec] at h; simp at h
        | some triple =>
          obtain ⟨t1r, t2r, mr⟩ := triple
          rw [hrec] at h
          obtain ⟨h1, h2, h3⟩ := ih t1r t2r mr hrec
          cases hta : a.truthy with
          | true =>
            simp only [hta, if_true] at h
            injection h with h
            injection h with e1 h
            injection h with e2 e3
            subst e1; subst e2; subst e3
            refine ⟨?_, ?_, ?_⟩ <;>
              simp [List.filter, flagTruthy, ha, hb, hta, h1, h2, h3]
          | false =>
            cases htb : b.truthy with
            | true =>
              simp only [hta, htb, if_false, if_true, Bool.false_eq_true] at h
              injection h with h
              injection h with e1 h
              injection h with e2 e3
              subst e1; subst e2; subst e3
              refine ⟨?_, ?_, ?_⟩ <;>
                simp [List.filter, flagTruthy, ha, hb, hta, htb, h1, h2, h3]
            | false =>
              simp only [hta, htb, if_false, Bool.false_eq_true] at h
              injection h with h
              injection h with e1 h
              injection h with e2 e3
              subst e1; subst e2; subst e3
              refine ⟨?_, ?_, ?_⟩ <;>
                simp [List.filter, flagTruthy, ha, hb, hta, htb, h1, h2, h3]

theorem three_filter_length {α : Type} (l : List α) (p q : α → Bool) :
    (List.filter p l).length + (List.filter (fun x => !p x && q x) l).length +
      (List.filter (fun x => !p x && !q x) l).length = l.length := by
  induction l with
  | nil => simp
  | cons x xs ih =>
    cases hp : p x <;> cases hq : q x <;> simp [List.filter, hp, hq] <;> omega

theorem count_filter_eq {α : Type} [BEq α] [LawfulBEq α] (l : List α) (p : α → Bool) (d : α) :
    (List.filter p l).count d = if p d then l.count d else 0 := by
  induction l with
  | nil => simp
  | cons x xs ih =>
    by_cases hx : x = d
    · subst hx
      cases hp : p x <;> simp [List.filter, hp, List.count_cons, ih]
    · have hxd : (x == d) = false := by simpa using hx
      cases hp : p x <;> simp [List.filter, hp, List.count_cons, hxd, ih]

/-- C2: for every input row sequence on which the classifier succeeds, the
sizes of the table1-exclusive, table2-exclusive and matched buckets add up
to the number of input rows, and every input row lands in exactly one
bucket (counted with multiplicity). -/
theorem C2_partition (schema : List String) (rows : List (List Value)) (t1 t2 m : List Pd)
    (h : _group_rows schema rows = some (t1, t2, m)) :
    t1.length + t2.length + m.length = rows.length ∧
    ∀ d : Pd, t1.count d + t2.count d + m.count d = (rows.map (mkRow schema)).count d := by
  obtain ⟨h1, h2, h3⟩ := group_rows_filter schema rows t1 t2 m h
  constructor
  · rw [h1, h2, h3]
    have hl := three_filter_length (rows.map (mkRow schema))
      (fun d => flagTruthy d ("is_exclusive_a")) (fun d => flagTruthy d ("is_exclusive_b"))
    simpa using hl
  · intro d
    rw [h1, h2, h3]
    rw [count_filter_eq (List.map (mkRow schema) rows) (fun d => flagTruthy d ("is_exclusive_a")) d]
    rw [count_filter_eq (List.map (mkRow schema) rows)
      (fun d => !flagTruthy d ("is_exclusive_a") && flagTruthy d ("is_exclusive_b")) d]
    rw [count_filter_eq (List.map (mkRow schema) rows)
      (fun d => !flagTruthy d ("is_exclusive_a") && !flagTruthy d ("is_exclusive_b")) d]
    cases hA : flagTruthy d ("is_exclusive_a") <;>
      cases hB : flagTruthy d ("is_exclusive_b") <;> simp [hA, hB]

/-- C8: a row whose `is_exclusive_a` and `is_exclusive_b` flags are both
truthy is placed in the table1-exclusive bucket (table1 wins the
tie-break), and in no other bucket. -/
theorem C8_tiebreak (schema : List String) (rows : List (List Value)) (t1 t2 m : List Pd)
    (row : List Value)
    (h : _group_rows schema rows = some (t1, t2, m))
    (hmem : row ∈ rows)
    (hA : flagTruthy (mkRow schema row) ("is_exclusive_a") = true)
    (hB : flagTruthy (mkRow schema row) ("is_exclusive_b") = true) :
    mkRow schema row ∈ t1 ∧ mkRow schema row ∉ t2 ∧ mkRow schema row ∉ m := by
  obtain ⟨h1, h2, h3⟩ := group_rows_filter schema rows t1 t2 m h
  subst h1; subst h2; subst h3
  refine ⟨?_, ?_, ?_⟩
  · exact List.mem_filter.2 ⟨List.mem_map_of_mem _ hmem, hA⟩
  · intro hc
    have hc2 := (List.mem_filter.1 hc).2
    simp [hA] at hc2
  · intro hc
    have hc2 := (List.mem_filter.1 hc).2
    simp [hA] at hc2

/-- C10: each classifier bucket equals the subsequence of the input rows
(after attaching the schema) that satisfies that bucket's classification
predicate, in the original input order. -/
theorem C10_order (schema : List String) (rows : List (List Value)) (t1 t2 m : List Pd)
    (h : _group_rows schema rows = some (t1, t2, m)) :
    t1 = List.filter (fun d => flagTruthy d ("is_exclusive_a")) (rows.map (mkRow schema)) ∧
    t2 = List.filter (fun d => !flagTruthy d ("is_exclusive_a") && flagTruthy d ("is_exclusive_b"))
      (rows.map (mkRow schema)) ∧
    m = List.filter (fun d => !flagTruthy d ("is_exclusive_a") && !flagTruthy d ("is_exclusive_b"))
      (rows.map (mkRow schema)) :=
  group_rows_filter schema rows t1 t2 m h

/-- Witness for `C2_partition`: the hypothesis holds and the conclusion is
obtained at a concrete two-row input, one table1-exclusive, one matched. -/
theorem C2_partition_witness :
    _group_rows (["is_exclusive_a", "is_exclusive_b"])
        ([[Value.vBool true, Value.vBool false], [Value.vBool false, Value.vBool false]]) =
      some ([[("is_exclusive_a", Value.vBool true), ("is_exclusive_b", Value.vBool false)]],
            ([] : List Pd),
            [[("is_exclusive_a", Value.vBool false), ("is_exclusive_b", Value.vBool false)]]) ∧
    ([[("is_exclusive_a", Value.vBool true), ("is_exclusive_b", Value.vBool false)]] : List Pd).length +
        ([] : List Pd).length +
        ([[("is_exclusive_a", Value.vBool false), ("is_exclusive_b", Value.vBool false)]] : List Pd).length =
      ([[Value.vBool true, Value.vBool false], [Value.vBool false, Value.vBool false]] : List (List Value)).length ∧
    ∀ d : Pd,
      ([[("is_exclusive_a", Value.vBool true), ("is_exclusive_b", Value.vBool false)]] : List Pd).count d +
          ([] : List Pd).count d +
          ([[("is_exclusive_a", Value.vBool false), ("is_exclusive_b", Value.vBool false)]] : List Pd).count d =
        (([[Value.vBool true, Value.vBool false], [Value.vBool false, Value.vBool false]] : List (List Value)).map
            (mkRow (["is_exclusive_a", "is_exclusive_b"]))).count d := by
  refine ⟨by decide, ?_, ?_⟩
  · exact (C2_partition (["is_exclusive_a", "is_exclusive_b"])
      ([[Value.vBool true, Value.vBool false], [Value.vBool false, Value.vBool false]])
      ([[("is_exclusive_a", Value.vBool true), ("is_exclusive_b", Value.vBool false)]])
      ([] : List Pd)
      ([[("is_exclusive_a", Value.vBool false), ("is_exclusive_b", Value.vBool false)]])
      (by decide)).1
  · exact (C2_partition (["is_exclusive_a", "is_exclusive_b"])
      ([[Value.vBool true, Value.vBool false], [Value.vBool false, Value.vBool false]])
      ([[("is_exclusive_a", Value.vBool true), ("is_exclusive_b", Value.vBool false)]])
      ([] : List Pd)
      ([[("is_exclusive_a", Value.vBool false), ("is_exclusive_b", Value.vBool false)]])
      (by decide)).2

/-- Witness for `C8_tiebreak`: a concrete row with both exclusivity flags
true lands in the table1-exclusive bucket only. -/
theorem C8_tiebreak_witness :
    _group_rows (["is_exclusive_a", "is_exclusive_b"]) ([[Value.vBool true, Value.vBool true]]) =
      some ([[("is_exclusive_a", Value.vBool true), ("is_exclusive_b", Value.vBool true)]],
            ([] : List Pd), ([] : List Pd)) ∧
    [Value.vBool true, Value.vBool true] ∈ ([[Value.vBool true, Value.vBool true]] : List (List Value)) ∧
    flagTruthy (mkRow (["is_exclusive_a", "is_exclusive_b"]) ([Value.vBool true, Value.vBool true]))
      ("is_exclusive_a") = true ∧
    flagTruthy (mkRow (["is_exclusive_a", "is_exclusive_b"]) ([Value.vBool true, Value.vBool true]))
      ("is_exclusive_b") = true ∧
    (mkRow (["is_exclusive_a", "is_exclusive_b"]) ([Value.vBool true, Value.vBool true]) ∈
        ([[("is_exclusive_a", Value.vBool true), ("is_exclusive_b", Value.vBool true)]] : List Pd) ∧
      mkRow (["is_exclusive_a", "is_exclusive_b"]) ([Value.vBool true, Value.vBool true]) ∉ ([] : List Pd) ∧
      mkRow (["is_exclusive_a", "is_exclusive_b"]) ([Value.vBool true, Value.vBool true]) ∉ ([] : List Pd)) := by
  refine ⟨by decide, by decide, by decide, by decide, ?_⟩
  exact C8_tiebreak (["is_exclusive_a", "is_exclusive_b"]) ([[Value.vBool true, Value.vBool true]])
    ([[("is_exclusive_a", Value.vBool true), ("is_exclusive_b", Value.vBool true)]])
    ([] : List Pd) ([] : List Pd)
    ([Value.vBool true, Value.vBool true]) (by decide) (by decide) (by decide) (by decide)

/-- Witness for `C10_order`: the bucket-as-filter identities at a concrete
three-row input, one row per bucket. -/
theorem C10_order_witness :
    _group_rows (["is_exclusive_a", "is_exclusive_b"])
        ([[Value.vBool true, Value.vBool false], [Value.vBool false, Value.vBool true],
          [Value.vBool false, Value.vBool false]]) =
      some ([[("is_exclusive_a", Value.vBool true), ("is_exclusive_b", Value.vBool false)]],
            [[("is_exclusive_a", Value.vBool false), ("is_exclusive_b", Value.vBool true)]],
            [[("is_exclusive_a", Value.vBool false), ("is_exclusive_b", Value.vBool false)]]) ∧
    ([[("is_exclusive_a", Value.vBool true), ("is_exclusive_b", Value.vBool false)]] : List Pd) =
      List.filter (fun d => flagTruthy d ("is_exclusive_a"))
        (([[Value.vBool true, Value.vBool false], [Value.vBool false, Value.vBool true],
           [Value.vBool false, Value.vBool false]] : List (List Value)).map
          (mkRow (["is_exclusive_a", "is_exclusive_b"]))) ∧
    ([[("is_exclusive_a", Value.vBool false), ("is_exclusive_b", Value.vBool true)]] : List Pd) =
      List.filter (fun d => !flagTruthy d ("is_exclusive_a") && flagTruthy d ("is_exclusive_b"))
        (([[Value.vBool true, Value.vBool false], [Value.vBool false, Value.vBool true],
           [Value.vBool false, Value.vBool false]] : List (List Value)).map
          (mkRow (["is_exclusive_a", "is_exclusive_b"]))) ∧
    ([[("is_exclusive_a", Value.vBool false), ("is_exclusive_b", Value.vBool false)]] : List Pd) =
      List.filter (fun d => !flagTruthy d ("is_exclusive_a") && !flagTruthy d ("is_exclusive_b"))
        (([[Value.vBool true, Value.vBool false], [Value.vBool false, Value.vBool true],
           [Value.vBool false, Value.vBool false]] : List (List Value)).map
          (mkRow (["is_exclusive_a", "is_exclusive_b"]))) := by
  refine ⟨by decide, ?_, ?_, ?_⟩
  · exact (C10_order (["is_exclusive_a", "is_exclusive_b"])
      ([[Value.vBool true, Value.vBool false], [Value.vBool false, Value.vBool true],
        [Value.vBool false, Value.vBool false]])
      ([[("is_exclusive_a", Value.vBool true), ("is_exclusive_b", Value.vBool false)]])
      ([[("is_exclusive_a", Value.vBool false), ("is_exclusive_b", Value.vBool true)]])
      ([[("is_exclusive_a", Value.vBool false), ("is_exclusive_b", Value.vBool false)]])
      (by decide)).1
  · exact (C10_order (["is_exclusive_a", "is_exclusive_b"])
      ([[Value.vBool true, Value.vBool false], [Value.vBool false, Value.vBool true],
        [Value.vBool false, Value.vBool false]])
      ([[("is_exclusive_a", Value.vBool true), ("is_exclusive_b", Value.vBool false)]])
      ([[("is_exclusive_a", Value.vBool false), ("is_exclusive_b", Value.vBool true)]])
      ([[("is_exclusive_a", Value.vBool false), ("is_exclusive_b", Value.vBool false)]])
      (by decide)).2.1
  · exact (C10_order (["is_exclusive_a", "is_exclusive_b"])
      ([[Value.vBool true, Value.vBool false], [Value.vBool false, Value.vBool true],
        [Value.vBool false, Value.vBool false]])
      ([[("is_exclusive_a", Value.vBool true), ("is_exclusive_b", Value.vBool false)]])
      ([[("is_exclusive_a", Value.vBool false), ("is_exclusive_b", Value.vBool true)]])
      ([[("is_exclusive_a", Value.vBool false), ("is_exclusive_b", Value.vBool false)]])
      (by decide)).2.2

theorem statusCalc_spec (t1 t2 m : List Pd) (wc : Option (List (String × List String))) (b : Bool)
    (h : statusCalc t1 t2 m wc = some b) :
    b = true ↔
      (t1 ≠ [] ∨ t2 ≠ [] ∨ m ≠ [] ∨
        (wcActive wc = true ∧
          (wcList wc ("added") ≠ [] ∨ wcList wc ("removed") ≠ [] ∨ wcList wc ("changed") ≠ []))) := by
  unfold statusCalc at h
  cases hbk : (!t1.isEmpty || !t2.isEmpty || !m.isEmpty) with
  | true =>
    rw [hbk] at h
    simp only [if_true, Option.some.injEq] at h
    subst h
    simp only [true_iff]
    rcases Bool.or_eq_true_iff.1 hbk with hx | hx
    · rcases Bool.or_eq_true_iff.1 hx with hy | hy
      · left; simpa [List.isEmpty_iff] using hy
      · right; left; simpa [List.isEmpty_iff] using hy
    · right; right; left; simpa [List.isEmpty_iff] using hx
  | false =>
    rw [hbk] at h
    simp only [Bool.false_eq_true, if_false] at h
    have ht1 : t1 = [] := by
      have := Bool.or_eq_false_iff.1 hbk
      have := Bool.or_eq_false_iff.1 this.1
      simpa [List.isEmpty_iff] using this.1
    have ht2 : t2 = [] := by
      have := Bool.or_eq_false_iff.1 hbk
      have := Bool.or_eq_false_iff.1 this.1
      simpa [List.isEmpty_iff] using this.2
    have htm : m = [] := by
      have := Bool.or_eq_false_iff.1 hbk
      simpa [List.isEmpty_iff] using this.2
    subst ht1; subst ht2; subst htm
    cases wc with
    | none =>
      simp only [Option.some.injEq] at h
      subst h
      simp [wcActive]
    | some d =>
      cases hde : d.isEmpty with
      | true =>
        simp only [hde, if_true, Option.some.injEq] at h
        subst h
        simp [wcActive, hde]
      | false =>
        simp only [hde, Bool.false_eq_true, if_false] at h
        cases hag : cdGet d ("added") with
        | none => rw [hag] at h; simp at h
        | some a =>
          rw [hag] at h
          cases hae : a.isEmpty with
          | false =>
            simp only [hae, Bool.not_false, if_true, Option.some.injEq] at h
            subst h
            simp only [true_iff]
            right; right; right
            refine ⟨by simp [wcActive, hde], ?_⟩
            left
            simp [wcList, hag]
            simpa [List.isEmpty_iff] using hae
          | true =>
            simp only [hae, Bool.not_true, Bool.false_eq_true, if_false] at h
            have ha : a = [] := by simpa [List.isEmpty_iff] using hae
            cases hrg : cdGet d ("removed") with
            | none => rw [hrg] at h; simp at h
            | some r =>
              rw [hrg] at h
              cases hre : r.isEmpty with
              | false =>
                simp only [hre, Bool.not_false, if_true, Option.some.injEq] at h
                subst h
                simp only [true_iff]
                right; right; right
                refine ⟨by simp [wcActive, hde], ?_⟩
                right; left
                simp [wcList, hrg]
                simpa [List.isEmpty_iff] using hre
              | true =>
                simp only [hre, Bool.not_true, Bool.false_eq_true, if_false] at h
                have hr : r = [] := by simpa [List.isEmpty_iff] using hre
                cases hcg : cdGet d ("changed") with
                | none => rw [hcg] at h; simp at h
                | some c =>
                  simp only [hcg, Option.some.injEq] at h
                  subst h
                  constructor
                  · intro hbc
                    right; right; right
                    refine ⟨by simp [wcActive, hde], ?_⟩
                    right; right
                    simp [wcList, hcg]
                    simpa [List.isEmpty_iff] using hbc
                  · intro hrhs
                    rcases hrhs with hx | hx | hx | ⟨hact, hx⟩
                    · exact absurd rfl hx
                    · exact absurd rfl hx
                    · exact absurd rfl hx
                    · rcases hx with hx | hx | hx
                      · exact absurd (by simp [wcList, hag, ha]) hx
                      · exact absurd (by simp [wcList, hrg, hr]) hx
                      · simp [wcList, hcg] at hx
                        simpa [List.isEmpty_iff] using hx



/-- C1: when `jsonify` succeeds, the output status is "different" exactly
when some row bucket is non-empty or the column-diff summary was requested
and lists some added, removed or changed column; otherwise "identical". -/
theorem C1_status (schema key_columns : List String) (rows : List (List Value))
    (dbt_model : String) (t1p t2p : List String) (ws : Bool) (stats : StatsDict)
    (wc : Option (List (String × List String))) (doc : JsonDiff) (t1 t2 m : List Pd)
    (hg : _group_rows schema rows = some (t1, t2, m))
    (hj : jsonify schema key_columns rows dbt_model t1p t2p ws stats wc = some doc) :
    doc.status =
      if t1 ≠ [] ∨ t2 ≠ [] ∨ m ≠ [] ∨
          (wcActive wc = true ∧
            (wcList wc ("added") ≠ [] ∨ wcList wc ("removed") ≠ [] ∨ wcList wc ("changed") ≠ []))
      then "different" else "identical" := by
  unfold jsonify at hj
  rw [hg] at hj
  cases hdr : List.mapM (fun r => _jsonify_diff r key_columns) m with
  | none => simp only [hdr] at hj; exact Option.noConfusion hj
  | some drj =>
    simp only [hdr] at hj
    cases h1j : List.mapM (fun r => _jsonify_exclusive r key_columns) t1 with
    | none => simp only [h1j] at hj; exact Option.noConfusion hj
    | some t1j =>
      simp only [h1j] at hj
      cases h2j : List.mapM (fun r => _jsonify_exclusive r key_columns) t2 with
      | none => simp only [h2j] at hj; exact Option.noConfusion hj
      | some t2j =>
        simp only [h2j] at hj
        cases hs : (if ws then Option.map some (_jsonify_diff_summary stats) else some none) with
        | none => rw [hs] at hj; exact Option.noConfusion hj
        | some summary =>
          rw [hs] at hj
          cases hst : statusCalc t1 t2 m wc with
          | none => simp only [hst] at hj; exact Option.noConfusion hj
          | some bb =>
            simp only [hst, Option.some.injEq] at hj
            have hchar := statusCalc_spec t1 t2 m wc bb hst
            have hds : doc.status = (if bb = true then "different" else "identical") := by
              rw [← hj]
            rw [hds]
            cases hbb : bb with
            | true =>
              rw [if_pos rfl, if_pos (hchar.1 hbb)]
            | false =>
              have hcond : ¬(t1 ≠ [] ∨ t2 ≠ [] ∨ m ≠ [] ∨
                  (wcActive wc = true ∧
                    (wcList wc ("added") ≠ [] ∨ wcList wc ("removed") ≠ [] ∨
                      wcList wc ("changed") ≠ []))) := by
                intro hc
                have h2 := hchar.2 hc
                rw [hbb] at h2
                exact Bool.false_ne_true h2
              rw [if_neg Bool.false_ne_true, if_neg hcond]



/-- Witness for `C1_status`: a concrete run whose table1-exclusive bucket
is non-empty yields status "different". -/
theorem C1_status_witness :
    _group_rows (["is_exclusive_a", "is_exclusive_b"]) ([[Value.vBool true, Value.vBool false]]) =
      some ([[("is_exclusive_a", Value.vBool true), ("is_exclusive_b", Value.vBool false)]],
            ([] : List Pd), ([] : List Pd)) ∧
    jsonify (["is_exclusive_a", "is_exclusive_b"]) ([]) ([[Value.vBool true, Value.vBool false]])
        ("m") (["x"]) (["y"]) false emptyStats none =
      some { status := "different", model := "m", table1 := ["x"], table2 := ["y"],
             rows := { exclusive := { table1 := [[]], table2 := [] }, diff := [] },
             summary := none, columns := none, version := "1.0.0" } ∧
    ({ status := "different", model := "m", table1 := ["x"], table2 := ["y"],
       rows := { exclusive := { table1 := [[]], table2 := [] }, diff := [] },
       summary := none, columns := none, version := "1.0.0" } : JsonDiff).status =
      (if ([[("is_exclusive_a", Value.vBool true), ("is_exclusive_b", Value.vBool false)]] : List Pd) ≠ [] ∨
          ([] : List Pd) ≠ [] ∨ ([] : List Pd) ≠ [] ∨
          (wcActive none = true ∧
            (wcList none ("added") ≠ [] ∨ wcList none ("removed") ≠ [] ∨ wcList none ("changed") ≠ []))
       then "different" else "identical") := by
  refine ⟨by decide, by decide, ?_⟩
  exact C1_status (["is_exclusive_a", "is_exclusive_b"]) ([]) ([[Value.vBool true, Value.vBool false]])
    ("m") (["x"]) (["y"]) false emptyStats none _ _ _ _ (by decide) (by decide)

theorem endsWith_b_not_a (s : String) (h : pyEndsWith s ("_b") = true) :
    pyEndsWith s ("_a") = false := by
  unfold pyEndsWith at h ⊢
  have hb : ("_b").data.reverse = ['b', '_'] := rfl
  have ha : ("_a").data.reverse = ['a', '_'] := rfl
  rw [hb] at h
  rw [ha]
  cases hs : s.data.reverse with
  | nil => rw [hs] at h; simp [List.isPrefixOf] at h
  | cons x xs =>
    rw [hs] at h
    cases xs with
    | nil => simp [List.isPrefixOf] at h
    | cons y ys =>
      simp only [List.isPrefixOf, Bool.and_eq_true, beq_iff_eq] at h
      obtain ⟨hx, _⟩ := h
      subst hx
      have hab : ('a' == 'b') = false := by decide
      simp [List.isPrefixOf, hab]

theorem exclLoop_side_a (keys : List String) (a b : Value)
    (ha : a.truthy = true) (hb : b.truthy = false) (fields : List (String × Value)) :
    ∀ acc : List (String × JsonExclusiveRowValue),
      exclLoop (some a) (some b) keys acc fields = some (fields.foldl (exclStepA keys) acc) := by
  induction fields with
  | nil => intro acc; rfl
  | cons fv rest ih =>
    intro acc
    obtain ⟨field, value⟩ := fv
    simp only [exclLoop, List.foldl, exclStepA]
    cases h1 : (field == "is_exclusive_a" || field == "is_exclusive_b") with
    | true => simp only [h1, if_true]; exact ih acc
    | false =>
      simp only [h1, Bool.false_eq_true, if_false]
      cases h2 : pyStartsWith field ("is_diff_") with
      | true => simp only [h2, if_true]; exact ih acc
      | false =>
        simp only [h2, Bool.false_eq_true, if_false]
        cases h3 : pyEndsWith field ("_b") with
        | true =>
          simp only [h3, if_true, hb, Bool.false_eq_true, if_false,
            endsWith_b_not_a field h3]
          exact ih acc
        | false =>
          simp only [h3, Bool.false_eq_true, if_false]
          cases h4 : pyEndsWith field ("_a") with
          | true =>
            simp only [h4, if_true, ha]
            exact ih _
          | false =>
            simp only [h4, Bool.false_eq_true, if_false]
            exact ih acc

theorem exclLoop_side_b (keys : List String) (a b : Value)
    (ha : a.truthy = false) (hb : b.truthy = true) (fields : List (String × Value)) :
    ∀ acc : List (String × JsonExclusiveRowValue),
      exclLoop (some a) (some b) keys acc fields = some (fields.foldl (exclStepB keys) acc) := by
  induction fields with
  | nil => intro acc; rfl
  | cons fv rest ih =>
    intro acc
    obtain ⟨field, value⟩ := fv
    simp only [exclLoop, List.foldl, exclStepB]
    cases h1 : (field == "is_exclusive_a" || field == "is_exclusive_b") with
    | true => simp only [h1, if_true]; exact ih acc
    | false =>
      simp only [h1, Bool.false_eq_true, if_false]
      cases h2 : pyStartsWith field ("is_diff_") with
      | true => simp only [h2, if_true]; exact ih acc
      | false =>
        simp only [h2, Bool.false_eq_true, if_false]
        cases h3 : pyEndsWith field ("_b") with
        | true =>
          simp only [h3, if_true, hb]
          exact ih _
        | false =>
          simp only [h3, Bool.false_eq_true, if_false]
          cases h4 : pyEndsWith field ("_a") with
          | true =>
            simp only [h4, if_true, ha, Bool.false_eq_true, if_false]
            exact ih acc
          | false =>
            simp only [h4, Bool.false_eq_true, if_false]
            exact ih acc



theorem updExcl_pres (keys : List String) (acc : List (String × JsonExclusiveRowValue))
    (k : String) (v : JsonExclusiveRowValue)
    (hacc : ∀ p ∈ acc, p.2.isPK = List.contains keys p.1)
    (hv : v.isPK = List.contains keys k) :
    ∀ p ∈ updExcl acc k v, p.2.isPK = List.contains keys p.1 := by
  intro p hp
  unfold updExcl at hp
  by_cases hc : acc.any (fun q => q.1 == k) = true
  · rw [if_pos hc] at hp
    rcases List.mem_map.1 hp with ⟨q, hq, hpq⟩
    by_cases hqk : (q.1 == k) = true
    · rw [if_pos hqk] at hpq
      rw [← hpq]
      exact hv
    · rw [if_neg hqk] at hpq
      rw [← hpq]
      exact hacc q hq
  · rw [if_neg hc] at hp
    rcases List.mem_append.1 hp with h | h
    · exact hacc p h
    · have : p = (k, v) := by simpa using h
      rw [this]
      exact hv

theorem exclLoop_isPK (flagA flagB : Option Value) (keys : List String)
    (fields : List (String × Value)) :
    ∀ (acc res : List (String × JsonExclusiveRowValue)),
      (∀ p ∈ acc, p.2.isPK = List.contains keys p.1) →
      exclLoop flagA flagB keys acc fields = some res →
      ∀ p ∈ res, p.2.isPK = List.contains keys p.1 := by
  induction fields with
  | nil =>
    intro acc res hacc h
    simp only [exclLoop, Option.some.injEq] at h
    rw [← h]
    exact hacc
  | cons fv rest ih =>
    intro acc res hacc h
    obtain ⟨field, value⟩ := fv
    simp only [exclLoop] at h
    cases h1 : (field == "is_exclusive_a" || field == "is_exclusive_b") with
    | true =>
      rw [h1] at h
      simp only [if_true] at h
      exact ih acc res hacc h
    | false =>
      rw [h1] at h
      simp only [Bool.false_eq_true, if_false] at h
      cases h2 : pyStartsWith field ("is_diff_") with
      | true =>
        rw [h2] at h
        simp only [if_true] at h
        exact ih acc res hacc h
      | false =>
        rw [h2] at h
        simp only [Bool.false_eq_true, if_false] at h
        cases h3 : pyEndsWith field ("_b") with
        | true =>
          rw [h3] at h
          simp only [if_true] at h
          cases flagB with
          | none => exact Option.noConfusion h
          | some b =>
            cases hbt : b.truthy with
            | true =>
              simp only [hbt, if_true] at h
              exact ih _ res
                (updExcl_pres keys acc (decode_b field)
                  ⟨List.contains keys (decode_b field), value⟩ hacc rfl) h
            | false =>
              simp only [hbt, Bool.false_eq_true, if_false] at h
              exact ih acc res hacc h
        | false =>
          rw [h3] at h
          simp only [Bool.false_eq_true, if_false] at h
          cases h4 : pyEndsWith field ("_a") with
          | true =>
            rw [h4] at h
            simp only [if_true] at h
            cases flagA with
            | none => exact Option.noConfusion h
            | some a =>
              cases hat : a.truthy with
              | true =>
                simp only [hat, if_true] at h
                exact ih _ res
                  (updExcl_pres keys acc (decode_a field)
                    ⟨List.contains keys (decode_a field), value⟩ hacc rfl) h
              | false =>
                simp only [hat, Bool.false_eq_true, if_false] at h
                exact ih acc res hacc h
          | false =>
            rw [h4] at h
            simp only [Bool.false_eq_true, if_false] at h
            exact ih acc res hacc h



/-- C4 (amended): for a row honouring the external mutual-exclusivity
contract, the exclusive reshaper projects only the fields of the row's own
side — `_a` fields for a table1-exclusive row, `_b` fields for a
table2-exclusive row — ignoring exclusivity flags and `is_diff_*` fields,
and every produced value's isPK equals key-set membership of its column. -/
theorem C4_exclusive_side (row : Pd) (keys : List String) (a b : Value)
    (ha : dget row ("is_exclusive_a") = some a)
    (hb : dget row ("is_exclusive_b") = some b)
    (hmx : ¬(a.truthy = true ∧ b.truthy = true)) :
    (a.truthy = true → _jsonify_exclusive row keys = some (exclusiveProjectionA row keys)) ∧
    (b.truthy = true → _jsonify_exclusive row keys = some (exclusiveProjectionB row keys)) ∧
    (∀ res, _jsonify_exclusive row keys = some res →
      ∀ p ∈ res, p.2.isPK = List.contains keys p.1) := by
  refine ⟨?_, ?_, ?_⟩
  · intro hat
    have hbf : b.truthy = false := by
      cases hbt : b.truthy with
      | false => rfl
      | true => exact absurd ⟨hat, hbt⟩ hmx
    unfold _jsonify_exclusive exclusiveProjectionA
    rw [ha, hb]
    exact exclLoop_side_a keys a b hat hbf row []
  · intro hbt
    have haf : a.truthy = false := by
      cases hat : a.truthy with
      | false => rfl
      | true => exact absurd ⟨hat, hbt⟩ hmx
    unfold _jsonify_exclusive exclusiveProjectionB
    rw [ha, hb]
    exact exclLoop_side_b keys a b haf hbt row []
  · intro res hres
    exact exclLoop_isPK (dget row ("is_exclusive_a")) (dget row ("is_exclusive_b")) keys row
      [] res (by intro p hp; exact absurd hp (List.not_mem_nil p)) hres

/-- C4 counterexample: a row with both exclusivity flags true is classified
table1-exclusive, yet its reshape takes the `id` value from the `id_b`
field (table2 data), so the output is not the a-side-only projection. -/
theorem C4_counterexample :
    _group_rows (["is_exclusive_a", "is_exclusive_b", "id_a", "id_b"])
        ([[Value.vBool true, Value.vBool true, Value.vInt 1, Value.vInt 2]]) =
      some ([mkRow (["is_exclusive_a", "is_exclusive_b", "id_a", "id_b"])
               ([Value.vBool true, Value.vBool true, Value.vInt 1, Value.vInt 2])],
            ([] : List Pd), ([] : List Pd)) ∧
    _jsonify_exclusive
        (mkRow (["is_exclusive_a", "is_exclusive_b", "id_a", "id_b"])
          ([Value.vBool true, Value.vBool true, Value.vInt 1, Value.vInt 2])) (["id"]) =
      some [("id", ⟨true, Value.vInt 2⟩)] ∧
    exclusiveProjectionA
        (mkRow (["is_exclusive_a", "is_exclusive_b", "id_a", "id_b"])
          ([Value.vBool true, Value.vBool true, Value.vInt 1, Value.vInt 2])) (["id"]) =
      [("id", ⟨true, Value.vInt 1⟩)] ∧
    _jsonify_exclusive
        (mkRow (["is_exclusive_a", "is_exclusive_b", "id_a", "id_b"])
          ([Value.vBool true, Value.vBool true, Value.vInt 1, Value.vInt 2])) (["id"]) ≠
      some (exclusiveProjectionA
        (mkRow (["is_exclusive_a", "is_exclusive_b", "id_a", "id_b"])
          ([Value.vBool true, Value.vBool true, Value.vInt 1, Value.vInt 2])) (["id"])) := by
  refine ⟨by decide, by decide, by decide, by decide⟩

/-- Witness for `C4_exclusive_side`: a concrete table1-exclusive row whose
reshape equals its a-side-only projection. -/
theorem C4_exclusive_side_witness :
    dget (mkRow (["is_exclusive_a", "is_exclusive_b", "id_a", "id_b"])
        ([Value.vBool true, Value.vBool false, Value.vInt 1, Value.vNull])) ("is_exclusive_a") =
      some (Value.vBool true) ∧
    dget (mkRow (["is_exclusive_a", "is_exclusive_b", "id_a", "id_b"])
        ([Value.vBool true, Value.vBool false, Value.vInt 1, Value.vNull])) ("is_exclusive_b") =
      some (Value.vBool false) ∧
    ¬((Value.vBool true).truthy = true ∧ (Value.vBool false).truthy = true) ∧
    ((Value.vBool true).truthy = true →
      _jsonify_exclusive (mkRow (["is_exclusive_a", "is_exclusive_b", "id_a", "id_b"])
          ([Value.vBool true, Value.vBool false, Value.vInt 1, Value.vNull])) (["id"]) =
        some (exclusiveProjectionA
          (mkRow (["is_exclusive_a", "is_exclusive_b", "id_a", "id_b"])
            ([Value.vBool true, Value.vBool false, Value.vInt 1, Value.vNull])) (["id"]))) := by
  refine ⟨by decide, by decide, by decide, ?_⟩
  exact (C4_exclusive_side
    (mkRow (["is_exclusive_a", "is_exclusive_b", "id_a", "id_b"])
      ([Value.vBool true, Value.vBool false, Value.vInt 1, Value.vNull]))
    (["id"]) (Value.vBool true) (Value.vBool false) (by decide) (by decide) (by decide)).1

/-- C3 (code bug): the reshapers decode column names with `str.replace`,
which removes every occurrence of the substring, not just the suffix: the
field `is_active_a` of column `is_active` decodes to `isctive`, and the
matched-row reshaper consequently fails on a well-formed row over that
column. -/
theorem C3_decode_bug :
    decode_a ("is_active_a") = "isctive" ∧
    ("isctive" : String) ≠ "is_active" ∧
    decode_a ("data_about_a") = "databout" ∧
    ("databout" : String) ≠ "data_about" ∧
    _jsonify_diff
        (mkRow (["is_exclusive_a", "is_exclusive_b", "is_active_a", "is_active_b", "is_diff_is_active"])
          ([Value.vBool false, Value.vBool false, Value.vBool true, Value.vBool false, Value.vBool true]))
        ([]) = none := by
  refine ⟨by decide, by decide, by decide, by decide, by decide⟩

/-- C5 (code bug): a matched row covering columns `is_active` and `name`,
with all three field kinds present per column, is not reshaped into a
fully populated two-key mapping: the decode bug splits `is_active` into
two partial accumulators and the reshaper (and the whole pipeline with it)
fails instead. -/
theorem C5_reshape_bug :
    _jsonify_diff
        (mkRow (["is_exclusive_a", "is_exclusive_b", "is_active_a", "is_active_b",
                 "is_diff_is_active", "name_a", "name_b", "is_diff_name"])
          ([Value.vBool false, Value.vBool false, Value.vBool true, Value.vBool false,
            Value.vBool true, Value.vStr "x", Value.vStr "x", Value.vBool false]))
        (["id"]) = none ∧
    jsonify (["is_exclusive_a", "is_exclusive_b", "is_active_a", "is_active_b",
              "is_diff_is_active", "name_a", "name_b", "is_diff_name"]) (["id"])
        ([[Value.vBool false, Value.vBool false, Value.vBool true, Value.vBool false,
           Value.vBool true, Value.vStr "x", Value.vStr "x", Value.vBool false]])
        ("m") ([]) ([]) false emptyStats none = none := by
  refine ⟨by decide, by decide⟩

/-- C6 (code bug): the columns projector tolerates missing keys of the
column-diff mapping, but the status computation of `jsonify` indexes the
same mapping directly: with the mapping containing only an empty 'added'
list, the projector succeeds while `jsonify` raises a KeyError on
'removed' and produces no document. -/
theorem C6_missing_key_bug :
    _jsonify_columns_diff ([("added", ([] : List String))]) =
      { exclusive := { table1 := [], table2 := [] }, typeChanged := [] } ∧
    statusCalc ([]) ([]) ([]) (some [("added", ([] : List String))]) = none ∧
    jsonify (["is_exclusive_a", "is_exclusive_b"]) ([]) ([]) ("m") ([]) ([]) false emptyStats
      (some [("added", ([] : List String))]) = none := by
  refine ⟨by decide, by decide, by decide⟩

/-- C7 counterexample: on the claim's exact scenario row the absent
`is_diff_id` field is not treated as false: the `id` column's accumulator
lacks `isDiff`, constructing `JsonDiffRowValue` raises, and `jsonify`
produces no document at all. -/
theorem C7_counterexample :
    jsonify (["is_exclusive_a", "is_exclusive_b", "id_a", "id_b", "name_a", "name_b", "is_diff_name"])
        (["id"])
        ([[Value.vBool false, Value.vBool false, Value.vInt 1, Value.vInt 1,
           Value.vStr "x", Value.vStr "y", Value.vBool true]])
        ("m") ([]) ([]) false emptyStats none = none := by decide

/-- C7 (amended): with `is_diff_id` present and false, the scenario row
produces exactly the claimed document: `rows.diff` holds the two decoded
columns with their values, diff flags and key membership, and the status
is "different". -/
theorem C7_matched_scenario :
    jsonify (["is_exclusive_a", "is_exclusive_b", "id_a", "id_b", "name_a", "name_b",
              "is_diff_name", "is_diff_id"])
        (["id"])
        ([[Value.vBool false, Value.vBool false, Value.vInt 1, Value.vInt 1,
           Value.vStr "x", Value.vStr "y", Value.vBool true, Value.vBool false]])
        ("m") (["t1"]) (["t2"]) false emptyStats none =
      some { status := "different", model := "m", table1 := ["t1"], table2 := ["t2"],
             rows := { exclusive := { table1 := [], table2 := [] },
                       diff := [[("id", { table1 := Value.vInt 1, table2 := Value.vInt 1,
                                          isDiff := false, isPK := true }),
                                 ("name", { table1 := Value.vStr "x", table2 := Value.vStr "y",
                                            isDiff := true, isPK := false })]] },
             summary := none, columns := none, version := "1.0.0" } := by decide

/-- C9: the columns projector reports 'added' columns as table2-exclusive,
'removed' columns as table1-exclusive, and 'changed' columns under
typeChanged. -/
theorem C9_columns_mapping (d : List (String × List String)) :
    (_jsonify_columns_diff d).exclusive.table2 = (cdGet d ("added")).getD [] ∧
    (_jsonify_columns_diff d).exclusive.table1 = (cdGet d ("removed")).getD [] ∧
    (_jsonify_columns_diff d).typeChanged = (cdGet d ("changed")).getD [] :=
  ⟨rfl, rfl, rfl⟩

end DataDiff
